import Mathlib

/-!
Verification of the supervisorctl client library (package supervisorctl,
file supervisor.go) against its natural-language specification.

Strings are shallowly embedded as lists of characters; the Go standard
library string operations used by the source (strings.Fields, strings.Join,
strings.Contains, strings.Split with a nonempty separator, strings.TrimSpace,
strconv.Atoi with the error dropped) are modelled as executable functions on
such lists.  Subprocess execution is modelled by passing the captured output
and the exit result of the external tool as explicit arguments.
-/

deriving instance DecidableEq for Except

namespace Supervisorctl

/-- A Go string, embedded as its list of characters. -/
abbrev Str := List Char

/-- Go unicode.IsSpace restricted to the Latin-1 range, which covers every
character the tool's status output can contain: space, tab, newline,
vertical tab, form feed, carriage return, next line, and no-break space. -/
def goIsSpace (c : Char) : Bool :=
  c == ' ' || c == '\t' || c == '\n' || c == '\x0b' || c == '\x0c' ||
  c == '\r' || c == '\u0085' || c == ' '

/-- Worker for goFields: acc holds the characters of the word currently
being read, in reverse order. -/
def goFieldsAux : Str → Str → List Str
  | [], acc => if acc = [] then [] else [acc.reverse]
  | c :: rest, acc =>
    if goIsSpace c then
      if acc = [] then goFieldsAux rest [] else acc.reverse :: goFieldsAux rest []
    else goFieldsAux rest (c :: acc)

/-- Go strings.Fields: split around each maximal run of whitespace,
returning the (necessarily nonempty) words. -/
def goFields (s : Str) : List Str := goFieldsAux s []

/-- Go strings.Contains: sub occurs as a contiguous substring of s
(the empty string occurs in every string). -/
def goContains : Str → Str → Bool
  | [], sub => sub = []
  | s@(_ :: rest), sub => sub.isPrefixOf s || goContains rest sub

/-- The part of s strictly before the first occurrence of the (nonempty)
separator sub; all of s when sub does not occur. -/
def textUpTo (sub : Str) : Str → Str
  | [] => []
  | c :: rest =>
    if sub ≠ [] ∧ sub.isPrefixOf (c :: rest) = true then []
    else c :: textUpTo sub rest

/-- The part of s strictly after the first occurrence of the (nonempty)
separator sub; empty when sub does not occur. -/
def textAfterFirst (sub : Str) : Str → Str
  | [] => []
  | c :: rest =>
    if sub ≠ [] ∧ sub.isPrefixOf (c :: rest) = true then (c :: rest).drop sub.length
    else textAfterFirst sub rest

/-- Fuel-driven worker for goSplit.  Each recursive step removes at least
one character (the separator is nonempty whenever the branch is taken), so
fuel equal to the length of the string is always sufficient. -/
def goSplitAux (sub : Str) : Nat → Str → List Str
  | 0, s => [s]
  | fuel + 1, s =>
    if goContains s sub = true ∧ sub ≠ [] then
      textUpTo sub s :: goSplitAux sub fuel (textAfterFirst sub s)
    else [s]

/-- Go strings.Split with a nonempty separator (the only way the source
calls it): the substrings between consecutive non-overlapping occurrences
of the separator, scanning left to right. -/
def goSplit (s sub : Str) : List Str := goSplitAux sub s.length s

/-- Go strings.TrimSpace: remove leading and trailing whitespace. -/
def goTrimSpace (s : Str) : Str :=
  ((s.dropWhile goIsSpace).reverse.dropWhile goIsSpace).reverse

/-- Go strings.Join: concatenate the elements, separated by sep. -/
def goJoin (sep : Str) : List Str → Str
  | [] => []
  | [x] => x
  | x :: xs => x ++ sep ++ goJoin sep xs

/-- Accumulating base-10 digit reader: fails on the first non-digit. -/
def parseDigitsAux : Str → Nat → Option Nat
  | [], acc => some acc
  | c :: rest, acc =>
    if c.isDigit then parseDigitsAux rest (10 * acc + (c.toNat - 48)) else none

/-- Largest value of Go's 64-bit int. -/
def int64Max : Int := 9223372036854775807

/-- Smallest value of Go's 64-bit int. -/
def int64Min : Int := -9223372036854775808

/-- Magnitude part of goAtoi: the value Go assigns for an optionally signed
digit string, clamped to the 64-bit range on overflow (strconv.ParseInt
returns the clamped value together with ErrRange, and the source drops the
error), and 0 on a syntax error. -/
def goAtoiCore (neg : Bool) (ds : Str) : Int :=
  match ds with
  | [] => 0
  | _ :: _ =>
    match parseDigitsAux ds 0 with
    | none => 0
    | some n =>
      if neg then
        if (n : Int) > 9223372036854775808 then int64Min else -(n : Int)
      else
        if (n : Int) > int64Max then int64Max else (n : Int)

/-- Go strconv.Atoi as the source uses it, with the returned error dropped:
the assigned integer is the parsed value, the clamped bound on range
overflow, and 0 on any syntax error. -/
def goAtoi (s : Str) : Int :=
  match s with
  | [] => 0
  | c :: rest =>
    if c = '+' then goAtoiCore false rest
    else if c = '-' then goAtoiCore true rest
    else goAtoiCore false (c :: rest)

/-- The sentinel description text special-cased by parseStatusLine. -/
def noSuchProcess : Str := "no such process".toList

/-- The marker introducing the numeric PID inside a description. -/
def pidMark : Str := "pid".toList

/-- The marker introducing the uptime text inside a description. -/
def uptimeMark : Str := "uptime".toList

/-- A one-character comma separator. -/
def commaStr : Str := [',']

/-- ProgramInfo from supervisor.go: the structured record produced for one
status line. -/
structure ProgramInfo where
  Name : Str
  Description : Str
  State : Int
  StateName : Str
  PID : Int
  Uptime : Str
deriving Repr, DecidableEq

/-- The stateMap lookup table of parseStatusLine: state token to state code. -/
def stateMap (state : Str) : Option Int :=
  if state = "STOPPED".toList then some 0
  else if state = "STARTING".toList then some 10
  else if state = "RUNNING".toList then some 20
  else if state = "BACKOFF".toList then some 30
  else if state = "STOPPING".toList then some 40
  else if state = "EXITED".toList then some 100
  else if state = "FATAL".toList then some 200
  else if state = "UNKNOWN".toList then some 1000
  else none

/-- The fixed enumeration of matched state code and state name pairs. -/
def stateTable : List (Int × Str) :=
  [(0, "STOPPED".toList), (10, "STARTING".toList), (20, "RUNNING".toList),
   (30, "BACKOFF".toList), (40, "STOPPING".toList), (100, "EXITED".toList),
   (200, "FATAL".toList), (1000, "UNKNOWN".toList)]

/-- parseStatusLine from supervisor.go: parse a single line of status
output into a ProgramInfo, or fail with an error message. -/
def parseStatusLine (line : Str) : Except Str ProgramInfo :=
  let parts := goFields line
  if parts.length < 3 then
    Except.error ("invalid status line: ".toList ++ line)
  else
    let name := parts.headD []
    let state := parts.getD 1 []
    let description := goJoin [' '] (parts.drop 2)
    if goContains description noSuchProcess then
      Except.ok { Name := name, Description := noSuchProcess, State := 1000,
                  StateName := "UNKNOWN".toList, PID := 0, Uptime := [] }
    else
      match stateMap state with
      | none => Except.error ("unknown state: ".toList ++ state)
      | some stateCode =>
        let pu : Int × Str :=
          if goContains description pidMark then
            let pidStr0 := (goSplit description pidMark).getD 1 []
            let pidStr := goTrimSpace ((goSplit pidStr0 commaStr).headD [])
            let pid := goAtoi pidStr
            let uptime : Str :=
              if goContains description uptimeMark then
                let uptimeParts := goSplit description uptimeMark
                if uptimeParts.length > 1 then
                  goTrimSpace ((goSplit (uptimeParts.getD 1 []) commaStr).headD [])
                else []
              else []
            (pid, uptime)
          else (0, [])
        Except.ok { Name := name, Description := description, State := stateCode,
                    StateName := state, PID := pu.1, Uptime := pu.2 }

/-- The description a line yields: the whitespace fields from the third
onward, rejoined with single spaces (mirrors lines 147 to 149 of the
source). -/
def descOf (line : Str) : Str := goJoin [' '] ((goFields line).drop 2)

/-- Strip one trailing carriage return, as bufio.ScanLines does per line. -/
def dropCR (l : Str) : Str := if l.getLast? = some '\r' then l.dropLast else l

/-- The token stream of bufio.Scanner with the default ScanLines split over
the whole captured output: split on newlines, do not emit a final empty
token after a trailing newline, strip one trailing carriage return from
each line. -/
def scanLines (s : Str) : List Str :=
  let parts := goSplit s ['\n']
  let parts := if parts.getLast? = some [] then parts.dropLast else parts
  parts.map dropCR

/-- The parsing loop of Status: parse each scanned line in order; the first
failing line aborts the whole call with a wrapped error and no record list. -/
def parsePrograms : List Str → Except Str (List ProgramInfo)
  | [] => Except.ok []
  | l :: rest =>
    match parseStatusLine l with
    | Except.error e => Except.error ("failed to parse status line: ".toList ++ e)
    | Except.ok p =>
      match parsePrograms rest with
      | Except.error e => Except.error e
      | Except.ok ps => Except.ok (p :: ps)

/-- Result of running the external tool and capturing its output:
it succeeded, or it ran and exited non-zero with the given code, or it
could not be launched at all.  The message is the underlying cause that
Go's error wraps. -/
inductive ExecResult where
  | success : ExecResult
  | exitErr : Int → Str → ExecResult
  | launchErr : Str → ExecResult
deriving DecidableEq

/-- Argument list built by Status (lines 67 to 73 of the source). -/
def statusArgs (configFile : Str) (names : List Str) : List Str :=
  let args := ["status".toList]
  let args := if names.length > 0 then args ++ names else args
  if configFile ≠ [] then "-c".toList :: configFile :: args else args

/-- Status from supervisor.go, with the subprocess effect made explicit:
given the captured output and the execution result, exit codes 3 and 4 are
tolerated and the output parsed anyway; any other non-zero exit yields an
error carrying the cause and the captured output; a launch failure yields
an error carrying the cause. -/
def Status (output : Str) (res : ExecResult) : Except Str (List ProgramInfo) :=
  match res with
  | ExecResult.success => parsePrograms (scanLines output)
  | ExecResult.exitErr code msg =>
    if code = 3 ∨ code = 4 then parsePrograms (scanLines output)
    else
      Except.error ("failed to get status: ".toList ++ msg ++
                    " - output ".toList ++ output ++ [' '])
  | ExecResult.launchErr msg =>
    Except.error ("failed to get status: ".toList ++ msg)

/-- Result of cmd.Run() for a control command: success, or an error whose
message is the underlying cause (a non-zero exit or a launch failure; the
source treats both identically). -/
inductive RunResult where
  | success : RunResult
  | failure : Str → RunResult
deriving DecidableEq

/-- Argument list built by Start (lines 103 to 106 of the source). -/
def startArgs (configFile programName : Str) : List Str :=
  let args := ["start".toList, programName]
  if configFile ≠ [] then "-c".toList :: configFile :: args else args

/-- Argument list built by Stop (lines 116 to 119 of the source). -/
def stopArgs (configFile programName : Str) : List Str :=
  let args := ["stop".toList, programName]
  if configFile ≠ [] then "-c".toList :: configFile :: args else args

/-- Argument list built by Restart (lines 129 to 132 of the source). -/
def restartArgs (configFile programName : Str) : List Str :=
  let args := ["restart".toList, programName]
  if configFile ≠ [] then "-c".toList :: configFile :: args else args

/-- Start from supervisor.go with the subprocess effect explicit. -/
def Start (res : RunResult) : Except Str Unit :=
  match res with
  | RunResult.success => Except.ok ()
  | RunResult.failure msg =>
    Except.error ("failed to start program: ".toList ++ msg)

/-- Stop from supervisor.go with the subprocess effect explicit. -/
def Stop (res : RunResult) : Except Str Unit :=
  match res with
  | RunResult.success => Except.ok ()
  | RunResult.failure msg =>
    Except.error ("failed to stop program: ".toList ++ msg)

/-- Restart from supervisor.go with the subprocess effect explicit. -/
def Restart (res : RunResult) : Except Str Unit :=
  match res with
  | RunResult.success => Except.ok ()
  | RunResult.failure msg =>
    Except.error ("failed to restart program: ".toList ++ msg)

/-- Modelled from the spec: StartAsync, referenced by the repository's
README but absent from src/.  It builds the same argument list as Start,
fires the subprocess without waiting, and swallows even a launch failure;
the pair returned is the constructed argument list together with the
observable outcome, which is success regardless of the launch result. -/
def StartAsync (configFile programName : Str) (_launch : RunResult) :
    List Str × Except Str Unit :=
  (startArgs configFile programName, Except.ok ())

/-- Modelled from the spec: RestartAsync, referenced by the repository's
README but absent from src/.  Identical argument construction to Restart,
fire-and-forget launch, no observable completion signal. -/
def RestartAsync (configFile programName : Str) (_launch : RunResult) :
    List Str × Except Str Unit :=
  (restartArgs configFile programName, Except.ok ())

/-- Follows the spec's words for claim C2, to be compared with the code:
the text after the first occurrence of pid, truncated at the next comma,
whitespace-trimmed and parsed as an integer with a failed parse yielding 0. -/
def specClaimedPid (description : Str) : Int :=
  goAtoi (goTrimSpace (textUpTo commaStr (textAfterFirst pidMark description)))

/-! ## String toolkit lemmas -/

theorem goContains_cons (c : Char) (rest sub : Str) :
    goContains (c :: rest) sub = (sub.isPrefixOf (c :: rest) || goContains rest sub) := rfl

theorem textUpTo_cons (sub : Str) (c : Char) (rest : Str) :
    textUpTo sub (c :: rest) =
      if sub ≠ [] ∧ sub.isPrefixOf (c :: rest) = true then []
      else c :: textUpTo sub rest := rfl

theorem textAfterFirst_cons (sub : Str) (c : Char) (rest : Str) :
    textAfterFirst sub (c :: rest) =
      if sub ≠ [] ∧ sub.isPrefixOf (c :: rest) = true then (c :: rest).drop sub.length
      else textAfterFirst sub rest := rfl

theorem isPrefixOf_append_self (l t : Str) : l.isPrefixOf (l ++ t) = true := by
  induction l with
  | nil => simp
  | cons c l2 ih =>
    rw [List.cons_append, List.isPrefixOf_cons₂, ih]
    simp

theorem isPrefixOf_cons_ne (c0 : Char) (s2 : Str) (d : Char) (rest : Str)
    (h : d ≠ c0) : (c0 :: s2).isPrefixOf (d :: rest) = false := by
  rw [List.isPrefixOf_cons₂]
  have hb : (c0 == d) = false := beq_eq_false_iff_ne.mpr fun he => h he.symm
  rw [hb, Bool.false_and]

theorem eq_append_of_isPrefixOf (l s : Str) (h : l.isPrefixOf s = true) :
    ∃ t, s = l ++ t := by
  induction l generalizing s with
  | nil => exact ⟨s, rfl⟩
  | cons c l2 ih =>
    cases s with
    | nil => exact absurd h (by rw [List.isPrefixOf_cons_nil]; simp)
    | cons d s2 =>
      rw [List.isPrefixOf_cons₂, Bool.and_eq_true, beq_iff_eq] at h
      obtain ⟨he, hp⟩ := h
      obtain ⟨t, ht⟩ := ih s2 hp
      exact ⟨t, by rw [List.cons_append, ← he, ← ht]⟩

theorem goContains_of_parts (u sub v : Str) :
    goContains (u ++ sub ++ v) sub = true := by
  induction u with
  | nil =>
    cases sub with
    | nil =>
      cases v with
      | nil => rfl
      | cons c v2 =>
        rw [List.nil_append, List.nil_append, goContains_cons, List.isPrefixOf_nil_left,
          Bool.true_or]
    | cons c s2 =>
      have hp := isPrefixOf_append_self (c :: s2) v
      rw [List.cons_append] at hp
      rw [List.nil_append, List.cons_append, goContains_cons, hp, Bool.true_or]
  | cons d u2 ih =>
    rw [List.append_assoc] at ih
    rw [List.append_assoc, List.cons_append, goContains_cons, ih, Bool.or_true]

theorem mem_of_goContains (s sub : Str) (h : goContains s sub = true)
    (c : Char) (hc : c ∈ sub) : c ∈ s := by
  induction s with
  | nil =>
    have hs : sub = [] := by simpa [goContains] using h
    subst hs
    cases hc
  | cons d rest ih =>
    rw [goContains_cons, Bool.or_eq_true] at h
    cases h with
    | inl hp =>
      obtain ⟨t, ht⟩ := eq_append_of_isPrefixOf sub (d :: rest) hp
      rw [ht]
      exact List.mem_append_left t hc
    | inr hr => exact List.mem_cons_of_mem d (ih hr)

theorem goContains_append_cancel (a rest : Str) (c0 : Char) (s2 : Str)
    (ha : ∀ c ∈ a, c ≠ c0) :
    goContains (a ++ rest) (c0 :: s2) = goContains rest (c0 :: s2) := by
  induction a with
  | nil => rfl
  | cons d a2 ih =>
    rw [List.cons_append, goContains_cons,
      isPrefixOf_cons_ne c0 s2 d (a2 ++ rest) (ha d (by simp)), Bool.false_or]
    exact ih fun c hc => ha c (by simp [hc])

theorem goContains_single_false (s : Str) (c0 : Char) (ha : ∀ c ∈ s, c ≠ c0) :
    goContains s [c0] = false := by
  cases h : goContains s [c0] with
  | false => rfl
  | true => exact absurd (mem_of_goContains s [c0] h c0 (by simp)) fun hm => ha c0 hm rfl

theorem textUpTo_append_cancel (a rest : Str) (c0 : Char) (s2 : Str)
    (ha : ∀ c ∈ a, c ≠ c0) :
    textUpTo (c0 :: s2) (a ++ rest) = a ++ textUpTo (c0 :: s2) rest := by
  induction a with
  | nil => rfl
  | cons d a2 ih =>
    have hnc : ¬((c0 :: s2) ≠ [] ∧ (c0 :: s2).isPrefixOf (d :: (a2 ++ rest)) = true) := by
      intro hcon
      rw [isPrefixOf_cons_ne c0 s2 d (a2 ++ rest) (ha d (by simp))] at hcon
      exact absurd hcon.2 (by simp)
    rw [List.cons_append, textUpTo_cons, if_neg hnc, ih fun c hc => ha c (by simp [hc]),
      List.cons_append]

theorem textAfterFirst_append_cancel (a rest : Str) (c0 : Char) (s2 : Str)
    (ha : ∀ c ∈ a, c ≠ c0) :
    textAfterFirst (c0 :: s2) (a ++ rest) = textAfterFirst (c0 :: s2) rest := by
  induction a with
  | nil => rfl
  | cons d a2 ih =>
    have hnc : ¬((c0 :: s2) ≠ [] ∧ (c0 :: s2).isPrefixOf (d :: (a2 ++ rest)) = true) := by
      intro hcon
      rw [isPrefixOf_cons_ne c0 s2 d (a2 ++ rest) (ha d (by simp))] at hcon
      exact absurd hcon.2 (by simp)
    rw [List.cons_append, textAfterFirst_cons, if_neg hnc, ih fun c hc => ha c (by simp [hc])]

theorem textUpTo_marker (c0 : Char) (s2 t : Str) :
    textUpTo (c0 :: s2) ((c0 :: s2) ++ t) = [] := by
  have hp := isPrefixOf_append_self (c0 :: s2) t
  rw [List.cons_append] at hp
  rw [List.cons_append, textUpTo_cons, if_pos ⟨by simp, hp⟩]

theorem textAfterFirst_marker (c0 : Char) (s2 t : Str) :
    textAfterFirst (c0 :: s2) ((c0 :: s2) ++ t) = t := by
  have hp := isPrefixOf_append_self (c0 :: s2) t
  rw [List.cons_append] at hp
  rw [List.cons_append, textAfterFirst_cons, if_pos ⟨by simp, hp⟩]
  have hd : ((c0 :: s2) ++ t).drop (c0 :: s2).length = t := List.drop_left (c0 :: s2) t
  rw [List.cons_append] at hd
  exact hd

theorem textUpTo_of_not_contains (s sub : Str) (h : goContains s sub = false) :
    textUpTo sub s = s := by
  induction s with
  | nil => rfl
  | cons c rest ih =>
    rw [goContains_cons, Bool.or_eq_false_iff] at h
    rw [textUpTo_cons, if_neg fun hcon => by rw [h.1] at hcon; exact absurd hcon.2 (by simp),
      ih h.2]

theorem textAfterFirst_length_lt (sub s : Str) (hne : sub ≠ [])
    (h : goContains s sub = true) : (textAfterFirst sub s).length < s.length := by
  induction s with
  | nil =>
    have hs : sub = [] := by simpa [goContains] using h
    exact absurd hs hne
  | cons c rest ih =>
    rw [goContains_cons, Bool.or_eq_true] at h
    by_cases hp : sub.isPrefixOf (c :: rest) = true
    · rw [textAfterFirst_cons, if_pos ⟨hne, hp⟩]
      cases sub with
      | nil => exact absurd rfl hne
      | cons c0 s2 =>
        simp only [List.length_cons, List.drop_succ_cons]
        have := List.length_drop s2.length rest
        omega
    · have hr : goContains rest sub = true := by
        cases h with
        | inl hl => exact absurd hl hp
        | inr hr => exact hr
      rw [textAfterFirst_cons, if_neg fun hcon => hp hcon.2]
      have := ih hr
      simp only [List.length_cons]
      omega

theorem goSplitAux_congr (sub : Str) (f1 : Nat) :
    ∀ (f2 : Nat) (s : Str), s.length ≤ f1 → s.length ≤ f2 →
      goSplitAux sub f1 s = goSplitAux sub f2 s := by
  induction f1 with
  | zero =>
    intro f2 s h1 h2
    have hs : s = [] := List.eq_nil_of_length_eq_zero (Nat.le_zero.mp h1)
    subst hs
    cases f2 with
    | zero => rfl
    | succ f =>
      simp only [goSplitAux]
      rw [if_neg]
      intro hcon
      simp [goContains] at hcon
  | succ f ih =>
    intro f2 s h1 h2
    cases f2 with
    | zero =>
      have hs : s = [] := List.eq_nil_of_length_eq_zero (Nat.le_zero.mp h2)
      subst hs
      simp only [goSplitAux]
      rw [if_neg]
      intro hcon
      simp [goContains] at hcon
    | succ f2 =>
      simp only [goSplitAux]
      by_cases hcond : goContains s sub = true ∧ sub ≠ []
      · rw [if_pos hcond, if_pos hcond]
        have hlt := textAfterFirst_length_lt sub s hcond.2 hcond.1
        rw [ih f2 (textAfterFirst sub s) (by omega) (by omega)]
      · rw [if_neg hcond, if_neg hcond]

theorem goSplit_eq (s sub : Str) :
    goSplit s sub =
      if goContains s sub = true ∧ sub ≠ [] then
        textUpTo sub s :: goSplit (textAfterFirst sub s) sub
      else [s] := by
  show goSplitAux sub s.length s = _
  cases hs : s.length with
  | zero =>
    have hnil : s = [] := List.eq_nil_of_length_eq_zero hs
    subst hnil
    rw [if_neg]
    · rfl
    intro hcon
    simp [goContains] at hcon
  | succ n =>
    simp only [goSplitAux]
    by_cases hcond : goContains s sub = true ∧ sub ≠ []
    · rw [if_pos hcond, if_pos hcond]
      have hlt := textAfterFirst_length_lt sub s hcond.2 hcond.1
      rw [goSplitAux_congr sub n (textAfterFirst sub s).length (textAfterFirst sub s)
        (by omega) (by omega)]
      rfl
    · rw [if_neg hcond, if_neg hcond]

theorem goSplit_ne_nil (s sub : Str) : goSplit s sub ≠ [] := by
  rw [goSplit_eq]
  by_cases hcond : goContains s sub = true ∧ sub ≠ [] <;> simp [hcond]

theorem goSplit_headD (s sub : Str) (hne : sub ≠ []) :
    (goSplit s sub).headD [] = textUpTo sub s := by
  rw [goSplit_eq]
  by_cases hcond : goContains s sub = true
  · rw [if_pos ⟨hcond, hne⟩]
    rfl
  · rw [if_neg fun hcon => hcond hcon.1]
    simp only [List.headD_cons]
    exact (textUpTo_of_not_contains s sub (by simpa using hcond)).symm

theorem getD_zero_eq_headD (l : List Str) : l.getD 0 [] = l.headD [] := by
  cases l <;> rfl

theorem goSplit_getD1 (s sub : Str) (hne : sub ≠ [])
    (h : goContains s sub = true) :
    (goSplit s sub).getD 1 [] = textUpTo sub (textAfterFirst sub s) := by
  rw [goSplit_eq, if_pos ⟨h, hne⟩]
  show (goSplit (textAfterFirst sub s) sub).getD 0 [] = _
  rw [getD_zero_eq_headD]
  exact goSplit_headD (textAfterFirst sub s) sub hne

theorem goSplit_length_ge_two (s sub : Str) (hne : sub ≠ [])
    (h : goContains s sub = true) : 1 < (goSplit s sub).length := by
  rw [goSplit_eq, if_pos ⟨h, hne⟩]
  simp only [List.length_cons]
  have := goSplit_ne_nil (textAfterFirst sub s) sub
  have : 0 < (goSplit (textAfterFirst sub s) sub).length := List.length_pos.mpr this
  omega

/-! ## Trim, digit and join lemmas -/

theorem dropWhile_no_hit (p : Char → Bool) (s : Str) (h : ∀ c ∈ s, p c = false) :
    s.dropWhile p = s := by
  cases s with
  | nil => rfl
  | cons c rest =>
    rw [List.dropWhile_cons, if_neg]
    rw [h c (by simp)]
    simp

theorem goTrimSpace_space_cons (T : Str) (hT : ∀ c ∈ T, goIsSpace c = false) :
    goTrimSpace (' ' :: T) = T := by
  unfold goTrimSpace
  rw [List.dropWhile_cons, if_pos (by decide), dropWhile_no_hit goIsSpace T hT,
    dropWhile_no_hit goIsSpace T.reverse fun c hc => hT c (List.mem_reverse.mp hc),
    List.reverse_reverse]

theorem digit_ne (c x : Char) (h : c.isDigit = true) (hx : x.isDigit = false) :
    c ≠ x := by
  intro he
  subst he
  rw [h] at hx
  exact Bool.noConfusion hx

theorem isSpace_false_of_digit (c : Char) (h : c.isDigit = true) :
    goIsSpace c = false := by
  have h1 : (c == ' ') = false := beq_eq_false_iff_ne.mpr (digit_ne c ' ' h (by decide))
  have h2 : (c == '\t') = false := beq_eq_false_iff_ne.mpr (digit_ne c '\t' h (by decide))
  have h3 : (c == '\n') = false := beq_eq_false_iff_ne.mpr (digit_ne c '\n' h (by decide))
  have h4 : (c == '\x0b') = false := beq_eq_false_iff_ne.mpr (digit_ne c '\x0b' h (by decide))
  have h5 : (c == '\x0c') = false := beq_eq_false_iff_ne.mpr (digit_ne c '\x0c' h (by decide))
  have h6 : (c == '\r') = false := beq_eq_false_iff_ne.mpr (digit_ne c '\r' h (by decide))
  have h7 : (c == '\u0085') = false := beq_eq_false_iff_ne.mpr (digit_ne c '\u0085' h (by decide))
  have h8 : (c == ' ') = false := beq_eq_false_iff_ne.mpr (digit_ne c ' ' h (by decide))
  simp [goIsSpace, h1, h2, h3, h4, h5, h6, h7, h8]

theorem parseDigitsAux_digits (s : Str) :
    ∀ (acc v : Nat), parseDigitsAux s acc = some v → ∀ c ∈ s, c.isDigit = true := by
  induction s with
  | nil => intro acc v _ c hc; cases hc
  | cons c rest ih =>
    intro acc v h d hd
    by_cases hc : c.isDigit = true
    · rw [parseDigitsAux, if_pos hc] at h
      rcases List.mem_cons.mp hd with he | hm
      · rw [he]; exact hc
      · exact ih _ v h d hm
    · rw [parseDigitsAux, if_neg hc] at h
      exact Option.noConfusion h

theorem goAtoi_digits (N : Str) (v : Nat) (hv : parseDigitsAux N 0 = some v)
    (hsmall : (v : Int) ≤ int64Max) : goAtoi N = (v : Int) := by
  cases N with
  | nil =>
    have hv0 : v = 0 := by
      rw [parseDigitsAux] at hv
      exact (Option.some_inj.mp hv).symm
    rw [hv0]
    rfl
  | cons c rest =>
    have hc : c.isDigit = true := parseDigitsAux_digits (c :: rest) 0 v hv c (by simp)
    have hp : c ≠ '+' := digit_ne c '+' hc (by decide)
    have hm : c ≠ '-' := digit_ne c '-' hc (by decide)
    rw [goAtoi, if_neg hp, if_neg hm]
    rw [goAtoiCore, hv]
    simp only [Bool.false_eq_true, if_false]
    rw [if_neg (not_lt.mpr hsmall)]

theorem goJoin_pair (sep a : Str) (b : List Str) (hb : b ≠ []) :
    goJoin sep (a :: b) = a ++ sep ++ goJoin sep b := by
  cases b with
  | nil => exact absurd rfl hb
  | cons x xs => rfl

/-! ## Fields lemmas -/

theorem goFieldsAux_space_append (b : Str) (a : Str) :
    ∀ acc : Str, goFieldsAux (a ++ ' ' :: b) acc = goFieldsAux a acc ++ goFieldsAux b [] := by
  induction a with
  | nil =>
    intro acc
    by_cases hacc : acc = [] <;>
      simp [goFieldsAux, hacc, show goIsSpace ' ' = true from by decide]
  | cons c a2 ih =>
    intro acc
    by_cases hsp : goIsSpace c = true
    · by_cases hacc : acc = [] <;>
        simp [goFieldsAux, hsp, hacc, ih]
    · rw [List.cons_append, goFieldsAux, goFieldsAux]
      rw [if_neg (by simpa using hsp), if_neg (by simpa using hsp)]
      exact ih (c :: acc)

theorem goFieldsAux_word (w : Str) (hw : ∀ c ∈ w, goIsSpace c = false) :
    ∀ acc : Str, goFieldsAux w acc =
      if acc.reverse ++ w = [] then [] else [acc.reverse ++ w] := by
  induction w with
  | nil =>
    intro acc
    by_cases hacc : acc = []
    · simp [goFieldsAux, hacc]
    · rw [goFieldsAux, if_neg hacc, if_neg (by simp [hacc])]
      simp
  | cons c w2 ih =>
    intro acc
    rw [goFieldsAux, if_neg (by simp [hw c (by simp)])]
    rw [ih (fun d hd => hw d (by simp [hd])) (c :: acc)]
    rw [if_neg (by simp), if_neg (by simp)]
    simp

theorem goFields_word (w : Str) (hne : w ≠ []) (hw : ∀ c ∈ w, goIsSpace c = false) :
    goFields w = [w] := by
  rw [goFields, goFieldsAux_word w hw []]
  simp [hne]

theorem goFields_space_append (a b : Str) :
    goFields (a ++ ' ' :: b) = goFields a ++ goFields b := by
  rw [goFields, goFieldsAux_space_append b a []]
  rfl

/-! ## Parsing loop lemmas -/

theorem parsePrograms_all_ok (ls : List Str)
    (h : ∀ l ∈ ls, (parseStatusLine l).isOk = true) :
    ∃ ps : List ProgramInfo, parsePrograms ls = Except.ok ps ∧
      ps.length = ls.length ∧
      ∀ (i : Nat) (hi : i < ls.length) (hj : i < ps.length),
        parseStatusLine (ls.get ⟨i, hi⟩) = Except.ok (ps.get ⟨i, hj⟩) := by
  induction ls with
  | nil =>
    refine ⟨[], rfl, rfl, ?_⟩
    intro i hi
    exact absurd hi (by simp)
  | cons l rest ih =>
    obtain ⟨ps, hps, hlen, hpt⟩ := ih fun x hx => h x (by simp [hx])
    have hl := h l (by simp)
    cases hpl : parseStatusLine l with
    | error e => rw [hpl] at hl; exact Bool.noConfusion hl
    | ok p =>
      refine ⟨p :: ps, ?_, by simp [hlen], ?_⟩
      · rw [parsePrograms, hpl, hps]
      · intro i hi hj
        cases i with
        | zero => exact hpl
        | succ i2 =>
          exact hpt i2 (by simpa using hi) (by simpa using hj)

theorem parsePrograms_error_of_bad (ls : List Str) (l : Str) (hmem : l ∈ ls)
    (hbad : (parseStatusLine l).isOk = false) :
    ∃ e, parsePrograms ls = Except.error e := by
  induction ls with
  | nil => cases hmem
  | cons x rest ih =>
    cases hx : parseStatusLine x with
    | error e =>
      refine ⟨"failed to parse status line: ".toList ++ e, ?_⟩
      rw [parsePrograms, hx]
    | ok p =>
      have hlr : l ∈ rest := by
        rcases List.mem_cons.mp hmem with he | hm
        · rw [he, hx] at hbad
          exact Bool.noConfusion hbad
        · exact hm
      obtain ⟨e, he⟩ := ih hlr
      refine ⟨e, ?_⟩
      rw [parsePrograms, hx, he]

theorem stateTable_of_stateMap (st : Str) (code : Int) (h : stateMap st = some code) :
    (code, st) ∈ stateTable := by
  unfold stateMap at h
  split_ifs at h with a1 a2 a3 a4 a5 a6 a7 a8 <;> simp_all [stateTable]

theorem textUpTo_marker2 (sub t : Str) (h : sub ≠ []) : textUpTo sub (sub ++ t) = [] := by
  cases sub with
  | nil => exact absurd rfl h
  | cons c0 s2 => exact textUpTo_marker c0 s2 t

theorem textAfterFirst_marker2 (sub t : Str) (h : sub ≠ []) :
    textAfterFirst sub (sub ++ t) = t := by
  cases sub with
  | nil => exact absurd rfl h
  | cons c0 s2 => exact textAfterFirst_marker c0 s2 t

theorem textUpTo_pid_cancel (a rest : Str) (ha : ∀ c ∈ a, c ≠ 'p') :
    textUpTo pidMark (a ++ rest) = a ++ textUpTo pidMark rest :=
  textUpTo_append_cancel a rest 'p' ("id".toList) ha

theorem textUpTo_comma_cancel (a rest : Str) (ha : ∀ c ∈ a, c ≠ ',') :
    textUpTo commaStr (a ++ rest) = a ++ textUpTo commaStr rest :=
  textUpTo_append_cancel a rest ',' [] ha

theorem textAfterFirst_uptime_cancel (a rest : Str) (ha : ∀ c ∈ a, c ≠ 'u') :
    textAfterFirst uptimeMark (a ++ rest) = textAfterFirst uptimeMark rest :=
  textAfterFirst_append_cancel a rest 'u' ("ptime".toList) ha

/-- Success form of parseStatusLine on the pid-bearing path: with at least
three fields, no sentinel, a known state token and a pid marker in the
description, the returned record is exactly the one the source builds. -/
theorem parseStatusLine_ok_form (line : Str) (code : Int)
    (h1 : ¬ (goFields line).length < 3)
    (hns : goContains (descOf line) noSuchProcess = false)
    (h3 : stateMap ((goFields line).getD 1 []) = some code)
    (hpid : goContains (descOf line) pidMark = true) :
    parseStatusLine line = Except.ok
      { Name := (goFields line).headD [],
        Description := descOf line,
        State := code,
        StateName := (goFields line).getD 1 [],
        PID := goAtoi (goTrimSpace
          ((goSplit ((goSplit (descOf line) pidMark).getD 1 []) commaStr).headD [])),
        Uptime :=
          if goContains (descOf line) uptimeMark = true then
            if 1 < (goSplit (descOf line) uptimeMark).length then
              goTrimSpace
                ((goSplit ((goSplit (descOf line) uptimeMark).getD 1 []) commaStr).headD [])
            else []
          else [] } := by
  have h3n : stateMap ((goFields line)[1]?.getD []) = some code := by
    simpa [List.getD_eq_getElem?_getD] using h3
  have hnsd : goContains (goJoin [' '] ((goFields line).drop 2)) noSuchProcess = false := hns
  have hpidd : goContains (goJoin [' '] ((goFields line).drop 2)) pidMark = true := hpid
  simp [parseStatusLine, descOf, h1, hnsd, h3n, hpidd, List.getD_eq_getElem?_getD,
    List.headD_eq_head?_getD]

/-- The code's two-stage split for the PID text equals the segment between
the first and second occurrences of pid, truncated at its first comma. -/
theorem pid_extraction_eq (desc : Str) (h : goContains desc pidMark = true) :
    (goSplit ((goSplit desc pidMark).getD 1 []) commaStr).headD [] =
      textUpTo commaStr (textUpTo pidMark (textAfterFirst pidMark desc)) := by
  rw [goSplit_getD1 desc pidMark (by decide) h,
    goSplit_headD (textUpTo pidMark (textAfterFirst pidMark desc)) commaStr (by decide)]

/-! ## Claim theorems -/

/-- C1: every line with at least 3 whitespace fields whose rejoined
description contains the substring no such process parses successfully to
the sentinel record with State 1000, StateName UNKNOWN, Description fixed
to no such process, PID 0 and empty Uptime, regardless of the second
token. -/
theorem c1_no_such_process (line : Str)
    (hlen : ¬ (goFields line).length < 3)
    (hns : goContains (descOf line) noSuchProcess = true) :
    parseStatusLine line = Except.ok
      { Name := (goFields line).headD [], Description := noSuchProcess,
        State := 1000, StateName := "UNKNOWN".toList, PID := 0, Uptime := [] } := by
  simp only [descOf] at hns
  simp [parseStatusLine, hns, hlen]

/-- Witness for C1 at a concrete ERROR line. -/
theorem c1_witness :
    parseStatusLine ("program3 ERROR (no such process)".toList) = Except.ok
      { Name := "program3".toList, Description := noSuchProcess, State := 1000,
        StateName := "UNKNOWN".toList, PID := 0, Uptime := [] } := by
  rw [c1_no_such_process ("program3 ERROR (no such process)".toList) (by decide) (by decide)]
  decide

/-- C2 counterexample: the claim's general clause reads the PID text as
everything after the first pid up to the next comma, but the code takes
the segment between the first and second occurrences of pid; on the line
a RUNNING pid 12pid, uptime 1:2 the code yields PID 12 while the claim's
reading yields 0.  Moreover a comma-free T containing uptime makes the
parsed Uptime differ from T, and a PID whose value exceeds the 64-bit
range is clamped rather than returned as written. -/
theorem c2_counterexample :
    (parseStatusLine ("a RUNNING pid 12pid, uptime 1:2".toList) = Except.ok
      { Name := ['a'], Description := "pid 12pid, uptime 1:2".toList, State := 20,
        StateName := "RUNNING".toList, PID := 12, Uptime := "1:2".toList }) ∧
    specClaimedPid ("pid 12pid, uptime 1:2".toList) = 0 ∧ (12 : Int) ≠ 0 ∧
    (parseStatusLine ("a RUNNING pid 5, uptime xuptimey".toList) = Except.ok
      { Name := ['a'], Description := "pid 5, uptime xuptimey".toList, State := 20,
        StateName := "RUNNING".toList, PID := 5, Uptime := ['x'] }) ∧
    (['x'] : Str) ≠ "xuptimey".toList ∧
    (parseStatusLine ("a RUNNING pid 99999999999999999999, uptime 1:2".toList) =
      Except.ok
        { Name := ['a'],
          Description := "pid 99999999999999999999, uptime 1:2".toList, State := 20,
          StateName := "RUNNING".toList, PID := int64Max, Uptime := "1:2".toList }) ∧
    int64Max ≠ (99999999999999999999 : Int) := by
  refine ⟨by decide, by decide, by decide, by decide, by decide, by decide, by decide⟩

/-- C2 amended: for lines of the RUNNING pid uptime shape, with name a
nonempty whitespace-free token, N a digit string whose value fits a 64-bit
int, and T nonempty, whitespace-free, comma-free, not containing uptime,
the description not containing the sentinel, parsing yields state 20 with
PID the value of N and Uptime exactly T; in general, when a successfully
parsed description contains pid and not the sentinel, the PID is the
whitespace-trimmed integer parse of the segment between the first and
second occurrences of pid, truncated at its first comma, a failed or
overflowing parse being silently tolerated. -/
theorem c2_amended_pid_uptime :
    (∀ (name N T : Str) (v : Nat),
      name ≠ [] → (∀ c ∈ name, goIsSpace c = false) →
      parseDigitsAux N 0 = some v → (v : Int) ≤ int64Max →
      T ≠ [] → (∀ c ∈ T, goIsSpace c = false) → (∀ c ∈ T, c ≠ ',') →
      goContains T uptimeMark = false →
      goContains ("pid ".toList ++ N ++ ", uptime ".toList ++ T) noSuchProcess = false →
      parseStatusLine (name ++ " RUNNING pid ".toList ++ N ++ ", uptime ".toList ++ T) =
        Except.ok
          { Name := name,
            Description := "pid ".toList ++ N ++ ", uptime ".toList ++ T,
            State := 20, StateName := "RUNNING".toList,
            PID := (v : Int), Uptime := T }) ∧
    (∀ (line : Str) (p : ProgramInfo),
      parseStatusLine line = Except.ok p →
      goContains (descOf line) noSuchProcess = false →
      goContains (descOf line) pidMark = true →
      p.PID = goAtoi (goTrimSpace (textUpTo commaStr
        (textUpTo pidMark (textAfterFirst pidMark (descOf line)))))) := by
  constructor
  · intro name N T v hname_ne hname_sp hv hvle hT_ne hT_sp hT_comma hT_um hns
    have hNd : ∀ c ∈ N, c.isDigit = true := parseDigitsAux_digits N 0 v hv
    have hN_sp : ∀ c ∈ N, goIsSpace c = false := fun c hc => isSpace_false_of_digit c (hNd c hc)
    have hN_p : ∀ c ∈ N, c ≠ 'p' := fun c hc => digit_ne c 'p' (hNd c hc) (by decide)
    have hN_u : ∀ c ∈ N, c ≠ 'u' := fun c hc => digit_ne c 'u' (hNd c hc) (by decide)
    have hN_comma : ∀ c ∈ N, c ≠ ',' := fun c hc => digit_ne c ',' (hNd c hc) (by decide)
    have e1 : name ++ " RUNNING pid ".toList ++ N ++ ", uptime ".toList ++ T =
        name ++ ' ' :: (("RUNNING".toList) ++ ' ' :: (("pid".toList) ++ ' ' ::
          ((N ++ [',']) ++ ' ' :: (("uptime".toList) ++ ' ' :: T)))) := by
      simp only [List.append_assoc, List.cons_append, List.nil_append]
      try rfl
    have hwordN : ∀ c ∈ N ++ [','], goIsSpace c = false := by
      intro c hc
      rcases List.mem_append.mp hc with hcn | hcc
      · exact hN_sp c hcn
      · have hcc2 : c = ',' := by simpa using hcc
        rw [hcc2]
        decide
    have hfields : goFields (name ++ " RUNNING pid ".toList ++ N ++ ", uptime ".toList ++ T) =
        [name, ("RUNNING".toList), ("pid".toList), N ++ [','], ("uptime".toList), T] := by
      rw [e1, goFields_space_append, goFields_space_append, goFields_space_append,
        goFields_space_append, goFields_space_append,
        goFields_word name hname_ne hname_sp,
        goFields_word ("RUNNING".toList) (by decide) (by decide),
        goFields_word ("pid".toList) (by decide) (by decide),
        goFields_word (N ++ [',']) (by simp) hwordN,
        goFields_word ("uptime".toList) (by decide) (by decide),
        goFields_word T hT_ne hT_sp]
      rfl
    have hdesc : goJoin [' ']
        [("pid".toList), N ++ [','], ("uptime".toList), T] =
        "pid ".toList ++ N ++ ", uptime ".toList ++ T := by
      simp only [goJoin, List.append_assoc, List.cons_append, List.nil_append]
      try rfl
    have hdescOf : descOf (name ++ " RUNNING pid ".toList ++ N ++ ", uptime ".toList ++ T) =
        "pid ".toList ++ N ++ ", uptime ".toList ++ T := by
      rw [descOf, hfields]
      simp only [List.drop_succ_cons, List.drop_zero]
      exact hdesc
    have h1 : ¬ (goFields (name ++ " RUNNING pid ".toList ++ N ++
        ", uptime ".toList ++ T)).length < 3 := by
      rw [hfields]
      simp
    have h3 : stateMap ((goFields (name ++ " RUNNING pid ".toList ++ N ++
        ", uptime ".toList ++ T)).getD 1 []) = some 20 := by
      rw [hfields]
      show stateMap ("RUNNING".toList) = some 20
      decide
    have hpidc : goContains ("pid ".toList ++ N ++ ", uptime ".toList ++ T) pidMark = true := by
      have e5b : "pid ".toList ++ N ++ ", uptime ".toList ++ T =
          ([] : Str) ++ pidMark ++ (' ' :: (N ++ (", uptime ".toList ++ T))) := by
        simp only [List.append_assoc, List.cons_append, List.nil_append]
        try rfl
      rw [e5b]
      exact goContains_of_parts [] pidMark (' ' :: (N ++ (", uptime ".toList ++ T)))
    have hafter : textAfterFirst pidMark ("pid ".toList ++ N ++ ", uptime ".toList ++ T) =
        ' ' :: (N ++ (", uptime ".toList ++ T)) := by
      have e5 : "pid ".toList ++ N ++ ", uptime ".toList ++ T =
          pidMark ++ (' ' :: (N ++ (", uptime ".toList ++ T))) := by
        simp only [List.append_assoc, List.cons_append, List.nil_append]
        try rfl
      rw [e5, textAfterFirst_marker2 pidMark _ (by decide)]
    have hupto1 : textUpTo pidMark (' ' :: (N ++ (", uptime ".toList ++ T))) =
        (' ' :: (N ++ [',', ' ', 'u'])) ++ 'p' :: ("time ".toList ++ textUpTo pidMark T) := by
      have e6 : ' ' :: (N ++ (", uptime ".toList ++ T)) =
          (' ' :: (N ++ [',', ' ', 'u'])) ++ ('p' :: ("time ".toList ++ T)) := by
        simp only [List.append_assoc, List.cons_append, List.nil_append]
        try rfl
      have ha6 : ∀ c ∈ (' ' :: (N ++ [',', ' ', 'u'])), c ≠ 'p' := by
        intro c hc
        rcases List.mem_cons.mp hc with rfl | hc2
        · decide
        · rcases List.mem_append.mp hc2 with hcn | hcl
          · exact hN_p c hcn
          · have hcl2 : c = ',' ∨ c = ' ' ∨ c = 'u' := by simpa using hcl
            rcases hcl2 with rfl | rfl | rfl <;> decide
      have hpre : pidMark.isPrefixOf ('p' :: ("time ".toList ++ T)) = false := by
        rw [show ("time ".toList ++ T) = 't' :: ("ime ".toList ++ T) from rfl,
          show pidMark = 'p' :: 'i' :: 'd' :: ([] : Str) from rfl,
          List.isPrefixOf_cons₂,
          isPrefixOf_cons_ne 'i' ('d' :: []) 't' ("ime ".toList ++ T) (by decide),
          Bool.and_false]
      rw [e6, textUpTo_pid_cancel (' ' :: (N ++ [',', ' ', 'u']))
          ('p' :: ("time ".toList ++ T)) ha6,
        textUpTo_cons, if_neg (fun hcon => by rw [hpre] at hcon; exact Bool.noConfusion hcon.2),
        textUpTo_pid_cancel ("time ".toList) T (by decide)]
    have hcomma1 : textUpTo commaStr
        ((' ' :: (N ++ [',', ' ', 'u'])) ++ 'p' :: ("time ".toList ++ textUpTo pidMark T)) =
        ' ' :: N := by
      have e8 : (' ' :: (N ++ [',', ' ', 'u'])) ++ 'p' :: ("time ".toList ++ textUpTo pidMark T) =
          (' ' :: N) ++ (',' :: (' ' :: 'u' :: 'p' :: ("time ".toList ++ textUpTo pidMark T))) := by
        simp only [List.append_assoc, List.cons_append, List.nil_append]
        try rfl
      have ha8 : ∀ c ∈ (' ' :: N), c ≠ ',' := by
        intro c hc
        rcases List.mem_cons.mp hc with rfl | hcn
        · decide
        · exact hN_comma c hcn
      have hcpre : commaStr.isPrefixOf
          (',' :: (' ' :: 'u' :: 'p' :: ("time ".toList ++ textUpTo pidMark T))) = true := by
        rw [show commaStr = ',' :: ([] : Str) from rfl, List.isPrefixOf_cons₂]
        simp
      rw [e8, textUpTo_comma_cancel (' ' :: N) _ ha8, textUpTo_cons,
        if_pos ⟨by decide, hcpre⟩, List.append_nil]
    have hPID : goAtoi (goTrimSpace ((goSplit ((goSplit
        ("pid ".toList ++ N ++ ", uptime ".toList ++ T) pidMark).getD 1 [])
        commaStr).headD [])) = (v : Int) := by
      rw [pid_extraction_eq _ hpidc, hafter, hupto1, hcomma1,
        goTrimSpace_space_cons N hN_sp, goAtoi_digits N v hv hvle]
    have hupcD : goContains ("pid ".toList ++ N ++ ", uptime ".toList ++ T) uptimeMark = true := by
      have e4 : "pid ".toList ++ N ++ ", uptime ".toList ++ T =
          ("pid ".toList ++ N ++ [',', ' ']) ++ uptimeMark ++ (' ' :: T) := by
        simp only [List.append_assoc, List.cons_append, List.nil_append]
        try rfl
      rw [e4]
      exact goContains_of_parts ("pid ".toList ++ N ++ [',', ' ']) uptimeMark (' ' :: T)
    have hafterU : textAfterFirst uptimeMark
        ("pid ".toList ++ N ++ ", uptime ".toList ++ T) = ' ' :: T := by
      have e4b : "pid ".toList ++ N ++ ", uptime ".toList ++ T =
          ("pid ".toList ++ N ++ [',', ' ']) ++ (uptimeMark ++ (' ' :: T)) := by
        simp only [List.append_assoc, List.cons_append, List.nil_append]
        try rfl
      have haA : ∀ c ∈ ("pid ".toList ++ N ++ [',', ' ']), c ≠ 'u' := by
        intro c hc
        rcases List.mem_append.mp hc with hc1 | hc2
        · rcases List.mem_append.mp hc1 with hc3 | hc4
          · have hc5 : c = 'p' ∨ c = 'i' ∨ c = 'd' ∨ c = ' ' := by simpa using hc3
            rcases hc5 with rfl | rfl | rfl | rfl <;> decide
          · exact hN_u c hc4
        · have hc6 : c = ',' ∨ c = ' ' := by simpa using hc2
          rcases hc6 with rfl | rfl <;> decide
      rw [e4b, textAfterFirst_uptime_cancel _ _ haA,
        textAfterFirst_marker2 uptimeMark _ (by decide)]
    have huptoU : textUpTo uptimeMark (' ' :: T) = ' ' :: T := by
      have h9 : uptimeMark.isPrefixOf (' ' :: T) = false :=
        isPrefixOf_cons_ne 'u' ("ptime".toList) ' ' T (by decide)
      rw [textUpTo_cons, if_neg (fun hcon => by rw [h9] at hcon; exact Bool.noConfusion hcon.2),
        textUpTo_of_not_contains T uptimeMark hT_um]
    have hcommaU : textUpTo commaStr (' ' :: T) = ' ' :: T := by
      have h10 : commaStr.isPrefixOf (' ' :: T) = false :=
        isPrefixOf_cons_ne ',' [] ' ' T (by decide)
      have h11 : goContains T commaStr = false := goContains_single_false T ',' hT_comma
      rw [textUpTo_cons, if_neg (fun hcon => by rw [h10] at hcon; exact Bool.noConfusion hcon.2),
        textUpTo_of_not_contains T commaStr h11]
    have hUP : (if goContains ("pid ".toList ++ N ++ ", uptime ".toList ++ T) uptimeMark = true then
        if 1 < (goSplit ("pid ".toList ++ N ++ ", uptime ".toList ++ T) uptimeMark).length then
          goTrimSpace ((goSplit ((goSplit ("pid ".toList ++ N ++ ", uptime ".toList ++ T)
            uptimeMark).getD 1 []) commaStr).headD [])
        else [] else []) = T := by
      rw [if_pos hupcD, if_pos (goSplit_length_ge_two _ uptimeMark (by decide) hupcD),
        goSplit_getD1 _ uptimeMark (by decide) hupcD, hafterU, huptoU,
        goSplit_headD _ commaStr (by decide), hcommaU, goTrimSpace_space_cons T hT_sp]
    have hnsf : goContains (descOf (name ++ " RUNNING pid ".toList ++ N ++
        ", uptime ".toList ++ T)) noSuchProcess = false := by
      rw [hdescOf]
      exact hns
    have hpidf : goContains (descOf (name ++ " RUNNING pid ".toList ++ N ++
        ", uptime ".toList ++ T)) pidMark = true := by
      rw [hdescOf]
      exact hpidc
    rw [parseStatusLine_ok_form (name ++ " RUNNING pid ".toList ++ N ++
      ", uptime ".toList ++ T) 20 h1 hnsf h3 hpidf, hdescOf, hfields]
    have hhead : ([name, ("RUNNING".toList), ("pid".toList), N ++ [','],
        ("uptime".toList), T] : List Str).headD [] = name := rfl
    have hget1 : ([name, ("RUNNING".toList), ("pid".toList), N ++ [','],
        ("uptime".toList), T] : List Str).getD 1 [] = "RUNNING".toList := rfl
    rw [hhead, hget1, hPID, hUP]
  · intro line p h hns hpid
    by_cases h1 : (goFields line).length < 3
    · simp [parseStatusLine, h1] at h
    · cases h3 : stateMap ((goFields line).getD 1 []) with
      | none =>
        have h3n : stateMap ((goFields line)[1]?.getD []) = none := by
          simpa [List.getD_eq_getElem?_getD] using h3
        have hnsd : goContains (goJoin [' '] ((goFields line).drop 2)) noSuchProcess = false := hns
        simp [parseStatusLine, h1, hnsd, h3n] at h
      | some code =>
        have hform := parseStatusLine_ok_form line code h1 hns h3 hpid
        rw [hform] at h
        have hp : _ = p := (Except.ok.injEq _ _).mp h
        rw [← hp]
        rw [pid_extraction_eq (descOf line) hpid]

/-- Witness for the amended C2 at the concrete RUNNING line of the test
suite, with N 123 and T a plain clock string. -/
theorem c2_witness :
    parseStatusLine ("program1".toList ++ " RUNNING pid ".toList ++ "123".toList ++
        ", uptime ".toList ++ "1:23:45".toList) = Except.ok
      { Name := "program1".toList, Description := "pid 123, uptime 1:23:45".toList,
        State := 20, StateName := "RUNNING".toList, PID := 123,
        Uptime := "1:23:45".toList } := by
  have h := c2_amended_pid_uptime.1 ("program1".toList) ("123".toList) ("1:23:45".toList) 123
    (by decide) (by decide) (by decide) (by decide) (by decide) (by decide) (by decide)
    (by decide) (by decide)
  rw [h]
  decide

/-- C3: parseStatusLine fails exactly on a line with fewer than 3 fields,
with an invalid-status-line message containing the line verbatim, or on a
line whose description lacks the sentinel and whose state token is not in
the enumeration, with an unknown-state message naming the token. -/
theorem c3_error_characterization (line : Str) :
    ((parseStatusLine line).isOk = false ↔
      ((goFields line).length < 3 ∨
        (¬ (goFields line).length < 3 ∧
          goContains (descOf line) noSuchProcess = false ∧
          stateMap ((goFields line).getD 1 []) = none))) ∧
    ((goFields line).length < 3 →
      parseStatusLine line = Except.error ("invalid status line: ".toList ++ line)) ∧
    (¬ (goFields line).length < 3 →
      goContains (descOf line) noSuchProcess = false →
      stateMap ((goFields line).getD 1 []) = none →
      parseStatusLine line =
        Except.error ("unknown state: ".toList ++ (goFields line).getD 1 [])) ∧
    goContains ("invalid status line: ".toList ++ line) line = true := by
  have hverb : goContains ("invalid status line: ".toList ++ line) line = true := by
    have := goContains_of_parts ("invalid status line: ".toList) line []
    simpa using this
  by_cases h1 : (goFields line).length < 3
  · refine ⟨?_, fun _ => by simp [parseStatusLine, h1], fun hc => absurd h1 hc, hverb⟩
    simp [parseStatusLine, h1, Except.isOk, Except.toBool]
  · by_cases h2 : goContains (descOf line) noSuchProcess = true
    · have h2d : goContains (goJoin [' '] ((goFields line).drop 2)) noSuchProcess = true := h2
      refine ⟨?_, fun hc => absurd hc h1, fun _ hc => ?_, hverb⟩
      · simp [parseStatusLine, h1, h2d, Except.isOk, Except.toBool, h2]
      · rw [h2] at hc
        exact Bool.noConfusion hc
    · have h2f : goContains (descOf line) noSuchProcess = false := by
        simpa using h2
      have h2d : goContains (goJoin [' '] ((goFields line).drop 2)) noSuchProcess = false := h2f
      cases h3 : stateMap ((goFields line).getD 1 []) with
      | none =>
        have h3n : stateMap ((goFields line)[1]?.getD []) = none := by
          simpa [List.getD_eq_getElem?_getD] using h3
        refine ⟨?_, fun hc => absurd hc h1, fun _ _ _ => ?_, hverb⟩
        · simp [parseStatusLine, h1, h2d, h3n, Except.isOk, Except.toBool, h2f]
        · simp [parseStatusLine, h1, h2d, h3n]
      | some code =>
        have h3n : stateMap ((goFields line)[1]?.getD []) = some code := by
          simpa [List.getD_eq_getElem?_getD] using h3
        refine ⟨?_, fun hc => absurd hc h1, fun _ _ hc => ?_, hverb⟩
        · simp [parseStatusLine, h1, h2d, h3n, Except.isOk, Except.toBool, h2f]
        · exact Option.noConfusion hc

/-- Witness for C3 at the concrete invalid line from the test suite. -/
theorem c3_witness :
    parseStatusLine ("invalid".toList) =
      Except.error ("invalid status line: invalid".toList) := by
  have h := (c3_error_characterization ("invalid".toList)).2.1 (by decide)
  rw [h]
  decide

/-- C4: every successfully parsed record carries a State and StateName pair
drawn from the fixed enumeration table; an unrecognized token never
produces a default value. -/
theorem c4_matched_state_pair (line : Str) (p : ProgramInfo)
    (h : parseStatusLine line = Except.ok p) : (p.State, p.StateName) ∈ stateTable := by
  by_cases h1 : (goFields line).length < 3
  · simp [parseStatusLine, h1] at h
  · by_cases h2 : goContains (goJoin [' '] ((goFields line).drop 2)) noSuchProcess = true
    · simp [parseStatusLine, h1, h2] at h
      rw [← h]
      simp [stateTable]
    · cases h3 : stateMap ((goFields line).getD 1 []) with
      | none =>
        have h3n : stateMap ((goFields line)[1]?.getD []) = none := by
          simpa [List.getD_eq_getElem?_getD] using h3
        simp [parseStatusLine, h1, h2, h3n] at h
      | some code =>
        have h3n : stateMap ((goFields line)[1]?.getD []) = some code := by
          simpa [List.getD_eq_getElem?_getD] using h3
        simp [parseStatusLine, h1, h2, h3n] at h
        rw [← h]
        have hmem := stateTable_of_stateMap ((goFields line).getD 1 []) code h3
        simpa [List.getD_eq_getElem?_getD] using hmem

/-- Witness for C4 at a concrete RUNNING line. -/
theorem c4_witness :
    ({ Name := "program1".toList, Description := "pid 123, uptime 1:23:45".toList,
       State := 20, StateName := "RUNNING".toList, PID := 123,
       Uptime := "1:23:45".toList } : ProgramInfo).State = 20 ∧
    (({ Name := "program1".toList, Description := "pid 123, uptime 1:23:45".toList,
        State := 20, StateName := "RUNNING".toList, PID := 123,
        Uptime := "1:23:45".toList } : ProgramInfo).State,
      ({ Name := "program1".toList, Description := "pid 123, uptime 1:23:45".toList,
         State := 20, StateName := "RUNNING".toList, PID := 123,
         Uptime := "1:23:45".toList } : ProgramInfo).StateName) ∈ stateTable :=
  ⟨rfl, c4_matched_state_pair ("program1 RUNNING pid 123, uptime 1:23:45".toList) _ (by decide)⟩

/-- C5: for Status, exit codes 3 and 4 are tolerated silently and the
output still parsed; any other non-zero exit yields an error wrapping the
cause and containing the captured output; a launch failure yields an error
wrapping the cause (the captured output being empty in that event). -/
theorem c5_status_exit_codes (out m : Str) (code : Int) :
    Status out (ExecResult.exitErr 3 m) = Status out ExecResult.success ∧
    Status out (ExecResult.exitErr 4 m) = Status out ExecResult.success ∧
    (code ≠ 3 → code ≠ 4 →
      Status out (ExecResult.exitErr code m) =
        Except.error ("failed to get status: ".toList ++ m ++
          " - output ".toList ++ out ++ [' ']) ∧
      goContains ("failed to get status: ".toList ++ m ++
        " - output ".toList ++ out ++ [' ']) out = true ∧
      goContains ("failed to get status: ".toList ++ m ++
        " - output ".toList ++ out ++ [' ']) m = true) ∧
    Status out (ExecResult.launchErr m) =
      Except.error ("failed to get status: ".toList ++ m) ∧
    goContains ("failed to get status: ".toList ++ m) m = true ∧
    goContains ("failed to get status: ".toList ++ m) [] = true := by
  refine ⟨by simp [Status], by simp [Status], fun h3 h4 => ⟨?_, ?_, ?_⟩, rfl, ?_, ?_⟩
  · rw [Status.eq_def]
    simp [h3, h4]
  · have := goContains_of_parts
      ("failed to get status: ".toList ++ m ++ " - output ".toList) out [' ']
    simpa [List.append_assoc] using this
  · have := goContains_of_parts
      ("failed to get status: ".toList) m (" - output ".toList ++ out ++ [' '])
    simpa [List.append_assoc] using this
  · have := goContains_of_parts ("failed to get status: ".toList) m []
    simpa using this
  · cases hm : ("failed to get status: ".toList ++ m : Str) with
    | nil => rfl
    | cons c rest => rw [goContains_cons, List.isPrefixOf_nil_left, Bool.true_or]

/-- Witness for C5 at exit code 1. -/
theorem c5_witness :
    Status ("boom".toList) (ExecResult.exitErr 1 ("exit status 1".toList)) =
      Except.error ("failed to get status: exit status 1 - output boom ".toList) := by
  have h := ((c5_status_exit_codes ("boom".toList) ("exit status 1".toList) 1).2.2.1
    (by decide) (by decide)).1
  rw [h]
  decide

/-- C6: the Status argument list is exactly status followed by the given
names in order, just status when no names are given, and a configured
configuration file path puts -c path in front of every subcommand. -/
theorem c6_argument_lists (cfg name : Str) (names : List Str) :
    statusArgs [] names = "status".toList :: names ∧
    statusArgs [] [] = ["status".toList] ∧
    (cfg ≠ [] →
      statusArgs cfg names = "-c".toList :: cfg :: "status".toList :: names ∧
      startArgs cfg name = ["-c".toList, cfg, "start".toList, name] ∧
      stopArgs cfg name = ["-c".toList, cfg, "stop".toList, name] ∧
      restartArgs cfg name = ["-c".toList, cfg, "restart".toList, name]) := by
  refine ⟨?_, rfl, fun hc => ⟨?_, ?_, ?_, ?_⟩⟩
  · cases names with
    | nil => rfl
    | cons n ns => simp [statusArgs]
  · cases names with
    | nil => simp [statusArgs, hc]
    | cons n ns => simp [statusArgs, hc]
  · simp [startArgs, hc]
  · simp [stopArgs, hc]
  · simp [restartArgs, hc]

/-- Witness for C6 at a concrete configuration path and program names. -/
theorem c6_witness :
    statusArgs ("/etc/supervisord.conf".toList) ["program1".toList, "program2".toList] =
      ["-c".toList, "/etc/supervisord.conf".toList, "status".toList,
       "program1".toList, "program2".toList] :=
  ((c6_argument_lists ("/etc/supervisord.conf".toList) ("p".toList)
    ["program1".toList, "program2".toList]).2.2 (by decide)).1

/-- C7: when every scanned line parses, Status returns exactly one record
per line in input order; on the concrete three-line output the three
records appear in order with program1 carrying PID 123 and uptime
1:23:45. -/
theorem c7_records_per_line (out : Str)
    (h : ∀ l ∈ scanLines out, (parseStatusLine l).isOk = true) :
    (∃ ps : List ProgramInfo, Status out ExecResult.success = Except.ok ps ∧
      ps.length = (scanLines out).length ∧
      ∀ (i : Nat) (hi : i < (scanLines out).length) (hj : i < ps.length),
        parseStatusLine ((scanLines out).get ⟨i, hi⟩) = Except.ok (ps.get ⟨i, hj⟩)) ∧
    Status ("program1 RUNNING pid 123, uptime 1:23:45\nprogram2 STOPPED not started\nprogram3 STARTING start in progress".toList)
        ExecResult.success =
      Except.ok
        [{ Name := "program1".toList, Description := "pid 123, uptime 1:23:45".toList,
           State := 20, StateName := "RUNNING".toList, PID := 123,
           Uptime := "1:23:45".toList },
         { Name := "program2".toList, Description := "not started".toList,
           State := 0, StateName := "STOPPED".toList, PID := 0, Uptime := [] },
         { Name := "program3".toList, Description := "start in progress".toList,
           State := 10, StateName := "STARTING".toList, PID := 0, Uptime := [] }] := by
  refine ⟨?_, by decide⟩
  obtain ⟨ps, h1, h2, h3⟩ := parsePrograms_all_ok (scanLines out) h
  exact ⟨ps, h1, h2, h3⟩

/-- Witness for C7 at the concrete three-line output. -/
theorem c7_witness :
    ∃ ps : List ProgramInfo,
      Status ("program1 RUNNING pid 123, uptime 1:23:45\nprogram2 STOPPED not started\nprogram3 STARTING start in progress".toList)
          ExecResult.success = Except.ok ps ∧
      ps.length = (scanLines ("program1 RUNNING pid 123, uptime 1:23:45\nprogram2 STOPPED not started\nprogram3 STARTING start in progress".toList)).length :=
  match (c7_records_per_line
    ("program1 RUNNING pid 123, uptime 1:23:45\nprogram2 STOPPED not started\nprogram3 STARTING start in progress".toList)
    (by decide)).1 with
  | ⟨ps, h1, h2, _⟩ => ⟨ps, h1, h2⟩

/-- C8: each control operation builds action then name, with the optional
leading configuration flag, returns success untouched, and wraps any run
failure, whether a non-zero exit or a launch failure, in an operation
specific error; no output is parsed, as the unit result records. -/
theorem c8_control_operations (cfg name m : Str) :
    startArgs [] name = ["start".toList, name] ∧
    stopArgs [] name = ["stop".toList, name] ∧
    restartArgs [] name = ["restart".toList, name] ∧
    (cfg ≠ [] →
      startArgs cfg name = ["-c".toList, cfg, "start".toList, name] ∧
      stopArgs cfg name = ["-c".toList, cfg, "stop".toList, name] ∧
      restartArgs cfg name = ["-c".toList, cfg, "restart".toList, name]) ∧
    Start RunResult.success = Except.ok () ∧
    Stop RunResult.success = Except.ok () ∧
    Restart RunResult.success = Except.ok () ∧
    Start (RunResult.failure m) =
      Except.error ("failed to start program: ".toList ++ m) ∧
    Stop (RunResult.failure m) =
      Except.error ("failed to stop program: ".toList ++ m) ∧
    Restart (RunResult.failure m) =
      Except.error ("failed to restart program: ".toList ++ m) ∧
    goContains ("failed to start program: ".toList ++ m) m = true ∧
    goContains ("failed to stop program: ".toList ++ m) m = true ∧
    goContains ("failed to restart program: ".toList ++ m) m = true := by
  refine ⟨rfl, rfl, rfl, fun hc => ⟨?_, ?_, ?_⟩, rfl, rfl, rfl, rfl, rfl, rfl, ?_, ?_, ?_⟩
  · simp [startArgs, hc]
  · simp [stopArgs, hc]
  · simp [restartArgs, hc]
  · have := goContains_of_parts ("failed to start program: ".toList) m []
    simpa using this
  · have := goContains_of_parts ("failed to stop program: ".toList) m []
    simpa using this
  · have := goContains_of_parts ("failed to restart program: ".toList) m []
    simpa using this

/-- Witness for C8 at a concrete name and cause. -/
theorem c8_witness :
    startArgs ("/etc/supervisord.conf".toList) ("program1".toList) =
      ["-c".toList, "/etc/supervisord.conf".toList, "start".toList, "program1".toList] :=
  ((c8_control_operations ("/etc/supervisord.conf".toList) ("program1".toList)
    ("command failed".toList)).2.2.2.1 (by decide)).1

/-- C9: the async variants build the same argument lists as their
synchronous counterparts and their observable outcome is success no matter
how the launch went, so even a launch failure is swallowed and no
completion signal exists. -/
theorem c9_async_variants (cfg name : Str) (r1 r2 : RunResult) :
    (StartAsync cfg name r1).1 = startArgs cfg name ∧
    (RestartAsync cfg name r1).1 = restartArgs cfg name ∧
    (StartAsync cfg name r1).2 = Except.ok () ∧
    (RestartAsync cfg name r1).2 = Except.ok () ∧
    StartAsync cfg name r1 = StartAsync cfg name r2 ∧
    RestartAsync cfg name r1 = RestartAsync cfg name r2 :=
  ⟨rfl, rfl, rfl, rfl, rfl, rfl⟩

/-- C10: whenever some scanned line fails to parse, Status returns an
error, in every branch that reaches the parsing loop; since the result
type is a sum, no record list accompanies the error. -/
theorem c10_error_drops_records (out m l : Str)
    (hmem : l ∈ scanLines out) (hbad : (parseStatusLine l).isOk = false) :
    (∃ e, Status out ExecResult.success = Except.error e) ∧
    (∃ e, Status out (ExecResult.exitErr 3 m) = Except.error e) ∧
    (∃ e, Status out (ExecResult.exitErr 4 m) = Except.error e) := by
  obtain ⟨e, he⟩ := parsePrograms_error_of_bad (scanLines out) l hmem hbad
  exact ⟨⟨e, he⟩, ⟨e, by simp [Status, he]⟩, ⟨e, by simp [Status, he]⟩⟩

/-- Witness for C10 at a concrete malformed output. -/
theorem c10_witness :
    ∃ e, Status ("program1 RUNNING pid 123, uptime 1:23:45\ninvalid".toList)
      ExecResult.success = Except.error e :=
  (c10_error_drops_records ("program1 RUNNING pid 123, uptime 1:23:45\ninvalid".toList)
    [] ("invalid".toList) (by decide) (by decide)).1

end Supervisorctl
